import Mathlib

/-!
Verification of the mmwave-spi-ftdi-reader pipeline.

The development shallowly embeds the two core source modules:

* `spi_ftdi_frame_reader.py` — `SpiFtdiFrameReader.__next__` assembles one
  frame of `frame_length` bytes out of chunked SPI reads, gated by a GPIO
  readiness poll, swapping each 4-byte lane from wire order [D,C,B,A] to
  [A,B,C,D].
* `radar_cube_reader.py` — `RadarCubeReader` validates the configuration,
  drives the SPI reader, and `_parse_frame` reinterprets the assembled bytes
  as little-endian int16 (real, imag) pairs laid out in SDK
  (chirp, antenna, range) order, transposed to the canonical
  (range, antenna, chirp) order.

Bytes are modelled as `Nat` (reduced mod 256 where the value matters), Python
ints as `Int`, the int16 components of parsed samples as `Int` (every int16 is
exactly representable in the float32 components the source uses, so the float
widening is value-preserving), and Python exceptions as the `Except.error`
branch of `Except String _`.  The hardware environment (GPIO poll outcomes and
SPI bus read outcomes) is passed in explicitly as a list of `BusStep`s, one per
iteration of the chunk loop: each `BusStep` records the outcome of the
readiness poll that precedes the read (the inner busy-wait loop of the source
either eventually breaks out — `ready` — or raises — `pinError`) and the
outcome of the single bus read issued after it.
-/

/-- The 4-byte lane swap applied to every chunk in
`SpiFtdiFrameReader.__next__` (lines 134–147): each aligned group of four
bytes `[D, C, B, A]` is appended to the frame buffer as `[A, B, C, D]`.
The source guarantees (and the code comment at lines 136–137 records) that the
chunk length is always a multiple of 4, so the catch-all branch for a trailing
group of fewer than 4 bytes is never reached on the source's domain. -/
def laneSwap : List Nat → List Nat
  | d :: c :: b :: a :: rest => a :: b :: c :: d :: laneSwap rest
  | rest => rest

/-- Outcome of the busy-wait poll loop on the SPI_BUSY GPIO pin
(`__next__` lines 106–113): the pin eventually reads low (`ready`), or a pin
read raises (`pinError`, source line 112–113). -/
inductive PollOutcome where
  | ready
  | pinError
deriving DecidableEq

/-- Outcome of one SPI bus read (`self._port.read(chunk_size)`, line 122):
either a list of bytes, or the read itself raises. -/
inductive ReadOutcome where
  | got (chunk : List Nat)
  | readError
deriving DecidableEq

/-- One iteration of the chunk loop: the poll outcome, then the read outcome. -/
structure BusStep where
  poll : PollOutcome
  read : ReadOutcome
deriving DecidableEq

/-- The chunk loop of `SpiFtdiFrameReader.__next__` (lines 99–155).
Arguments: the reader's `max_chunk_size`, whether `self._port` is set
(`portOpen`), the environment (one `BusStep` per loop iteration), the
`remaining_bytes` counter, the `frame_data` accumulator, and a ghost counter
of bus reads performed so far (used to state the read-count property; it does
not influence control flow).  Returns the assembled frame and the read count,
or the message of the `StopIteration` the source raises.  The
`[]`-with-work-left case is a model artifact: it means the supplied
environment ended before the loop did (the source would keep polling). -/
def assembleFrame (mcs : Nat) (portOpen : Bool) :
    List BusStep → Nat → List Nat → Nat → Except String (List Nat × Nat)
  | _, 0, acc, n => Except.ok (acc, n)
  | [], _ + 1, _, _ => Except.error "model: environment ended before the frame was complete"
  | ⟨PollOutcome.pinError, _⟩ :: _, _ + 1, _, _ =>
      Except.error "Error during busy wait for SPI_BUSY signal"
  | ⟨PollOutcome.ready, rd⟩ :: rest, r + 1, acc, n =>
      if portOpen = false then
        Except.error "SPI port not initialized or was closed prematurely."
      else
        match rd with
        | ReadOutcome.readError => Except.error "Error during SPI chunk read"
        | ReadOutcome.got chunk =>
          if chunk.length = 0 then
            Except.error "No data received after SPI_BUSY signal changed to low"
          else if chunk.length ≠ min (r + 1) mcs then
            Except.error "Received chunk size mismatch"
          else
            assembleFrame mcs portOpen rest (r + 1 - min (r + 1) mcs)
              (acc ++ laneSwap chunk) (n + 1)

/-- Construction-time data of a `SpiFtdiFrameReader`. -/
structure SpiReaderCfg where
  frame_length : Nat
  max_chunk_size : Nat
deriving DecidableEq

/-- `SpiFtdiFrameReader.__next__`: runs the chunk loop starting from
`remaining_bytes = frame_length` and an empty `frame_data` buffer. -/
def spiFrameReaderNext (cfg : SpiReaderCfg) (portOpen : Bool) (steps : List BusStep) :
    Except String (List Nat × Nat) :=
  assembleFrame cfg.max_chunk_size portOpen steps cfg.frame_length [] 0

/-- Whether a call outcome is an exception. -/
def isErr {α : Type} : Except String α → Bool
  | Except.error _ => true
  | Except.ok _ => false

theorem laneSwap_length (l : List Nat) : (laneSwap l).length = l.length := by
  induction l using laneSwap.induct with
  | case1 d c b a rest ih => simp [laneSwap, ih]
  | case2 rest h => simp [laneSwap]

/-- C2: every aligned 4-byte group of a chunk is reversed by the lane swap:
whenever `4*i+3 < chunk.length`, the bytes at offsets `4*i .. 4*i+3` of the
swapped chunk (which `assembleFrame` appends to the frame buffer) are the
bytes at offsets `4*i+3, 4*i+2, 4*i+1, 4*i` of the received chunk.  The
transform is unconditional: `laneSwap` (like the source loop at lines
138–147) takes no configuration input. -/
theorem c2_lane_swap_reverses_groups (chunk : List Nat) (i : Nat)
    (h : 4 * i + 3 < chunk.length) :
    (laneSwap chunk).getD (4 * i) 0 = chunk.getD (4 * i + 3) 0 ∧
    (laneSwap chunk).getD (4 * i + 1) 0 = chunk.getD (4 * i + 2) 0 ∧
    (laneSwap chunk).getD (4 * i + 2) 0 = chunk.getD (4 * i + 1) 0 ∧
    (laneSwap chunk).getD (4 * i + 3) 0 = chunk.getD (4 * i) 0 := by
  induction i generalizing chunk with
  | zero =>
    match chunk, h with
    | d :: c :: b :: a :: rest, _ => simp [laneSwap]
  | succ i ih =>
    match chunk, h with
    | d :: c :: b :: a :: rest, h =>
      have hrest : 4 * i + 3 < rest.length := by
        simp only [List.length_cons] at h; omega
      obtain ⟨g0, g1, g2, g3⟩ := ih rest hrest
      have key : ∀ (w x y z : Nat) (l : List Nat) (m : Nat),
          (w :: x :: y :: z :: l).getD (m + 4) 0 = l.getD m 0 := by
        intro w x y z l m
        have e : m + 4 = m + 1 + 1 + 1 + 1 := by omega
        rw [e]; simp [List.getD]
      have e0 : 4 * (i + 1) = 4 * i + 4 := by omega
      have e1 : 4 * (i + 1) + 1 = 4 * i + 1 + 4 := by omega
      have e2 : 4 * (i + 1) + 2 = 4 * i + 2 + 4 := by omega
      have e3 : 4 * (i + 1) + 3 = 4 * i + 3 + 4 := by omega
      refine ⟨?_, ?_, ?_, ?_⟩
      · simp only [laneSwap]; rw [e3, e0, key, key]; exact g0
      · simp only [laneSwap]; rw [e1, e2, key, key]; exact g1
      · simp only [laneSwap]; rw [e2, e1, key, key]; exact g2
      · simp only [laneSwap]; rw [e3, e0, key, key]; exact g3

/-- C2 witness: the concrete chunk `[10, 20, 30, 40]` has its (only) aligned
group written to the frame buffer reversed. -/
theorem c2_lane_swap_reverses_groups_witness :
    (laneSwap [10, 20, 30, 40]).getD 0 0 = [10, 20, 30, 40].getD 3 0 ∧
    (laneSwap [10, 20, 30, 40]).getD 1 0 = [10, 20, 30, 40].getD 2 0 ∧
    (laneSwap [10, 20, 30, 40]).getD 2 0 = [10, 20, 30, 40].getD 1 0 ∧
    (laneSwap [10, 20, 30, 40]).getD 3 0 = [10, 20, 30, 40].getD 0 0 :=
  c2_lane_swap_reverses_groups [10, 20, 30, 40] 0 (by decide)

theorem assembleFrame_ok_length (steps : List BusStep) :
    ∀ (mcs : Nat) (po : Bool) (r : Nat) (acc : List Nat) (n : Nat) (buf : List Nat) (m : Nat),
      assembleFrame mcs po steps r acc n = Except.ok (buf, m) →
      buf.length = acc.length + r := by
  induction steps with
  | nil =>
    intro mcs po r acc n buf m h
    cases r with
    | zero =>
      simp only [assembleFrame, Except.ok.injEq, Prod.mk.injEq] at h
      simp [← h.1]
    | succ r' => simp [assembleFrame] at h
  | cons step rest ih =>
    intro mcs po r acc n buf m h
    obtain ⟨poll, rd⟩ := step
    cases r with
    | zero =>
      simp only [assembleFrame, Except.ok.injEq, Prod.mk.injEq] at h
      simp [← h.1]
    | succ r' =>
      cases poll with
      | pinError => simp [assembleFrame] at h
      | ready =>
        by_cases hp : po = false
        · simp [assembleFrame, hp] at h
        · cases rd with
          | readError => simp [assembleFrame, if_neg hp] at h
          | got chunk =>
            simp only [assembleFrame, if_neg hp] at h
            split_ifs at h with h0 h1
            have hlen : chunk.length = min (r' + 1) mcs := by
              by_contra hc; exact h1 hc
            have hrec := ih mcs po (r' + 1 - min (r' + 1) mcs)
              (acc ++ laneSwap chunk) (n + 1) buf m h
            have hls : (laneSwap chunk).length = chunk.length := laneSwap_length chunk
            have hmin : min (r' + 1) mcs ≤ r' + 1 := Nat.min_le_left _ _
            simp only [List.length_append, hls, hlen] at hrec
            omega

theorem assembleFrame_closed_errors (steps : List BusStep) (mcs r : Nat)
    (acc : List Nat) (n : Nat) :
    isErr (assembleFrame mcs false steps (r + 1) acc n) = true := by
  match steps with
  | [] => simp [assembleFrame, isErr]
  | ⟨PollOutcome.pinError, rd⟩ :: rest => simp [assembleFrame, isErr]
  | ⟨PollOutcome.ready, rd⟩ :: rest => simp [assembleFrame, isErr]

/-- C1 (amended): every successful call to `SpiFtdiFrameReader.__next__`
returns a buffer of exactly `frame_length` bytes — a partial frame is never
returned (any pin-read failure, short read, or mid-assembly closed port makes
the call raise instead).  Moreover a successful call with a closed port is
possible only in the degenerate `frame_length = 0` case, where the chunk loop
never runs and the (empty, hence complete) frame is returned without the
closed-port check ever executing. -/
theorem c1_exact_frame_length (cfg : SpiReaderCfg) (po : Bool) (steps : List BusStep)
    (buf : List Nat) (n : Nat)
    (h : spiFrameReaderNext cfg po steps = Except.ok (buf, n)) :
    buf.length = cfg.frame_length ∧ (cfg.frame_length = 0 ∨ po = true) := by
  constructor
  · have := assembleFrame_ok_length steps cfg.max_chunk_size po cfg.frame_length [] 0 buf n h
    simpa using this
  · cases po with
    | true => right; rfl
    | false =>
      left
      by_contra hfl
      obtain ⟨r, hr⟩ : ∃ r, cfg.frame_length = r + 1 := ⟨cfg.frame_length - 1, by omega⟩
      have herr := assembleFrame_closed_errors steps cfg.max_chunk_size r [] 0
      unfold spiFrameReaderNext at h
      rw [hr] at h
      rw [h] at herr
      simp [isErr] at herr

/-- C1 witness: a reader with `frame_length = 4` that receives the single
chunk `[1, 2, 3, 4]` returns the 4-byte (lane-swapped) frame `[4, 3, 2, 1]`. -/
theorem c1_exact_frame_length_witness :
    ([4, 3, 2, 1] : List Nat).length = (⟨4, 4⟩ : SpiReaderCfg).frame_length ∧
      ((⟨4, 4⟩ : SpiReaderCfg).frame_length = 0 ∨ true = true) :=
  c1_exact_frame_length ⟨4, 4⟩ true
    [⟨PollOutcome.ready, ReadOutcome.got [1, 2, 3, 4]⟩] [4, 3, 2, 1] 1 rfl

/-- C1 counterexample to the claim as stated: with `frame_length = 0` (which
passes the constructor's divisibility check) and a closed port, `__next__`
returns successfully (the empty frame, zero bus reads) instead of raising:
`remaining_bytes` starts at 0, so the loop body — including the closed-port
check — never executes. -/
theorem c1_closed_port_counterexample :
    spiFrameReaderNext ⟨0, 65024⟩ false [] = Except.ok ([], 0) := rfl

theorem laneSwap_append : ∀ (xs ys : List Nat), xs.length % 4 = 0 →
    laneSwap (xs ++ ys) = laneSwap xs ++ laneSwap ys
  | [], ys, _ => by simp [laneSwap]
  | [x], ys, h => by simp at h
  | [x, y], ys, h => by simp at h
  | [x, y, z], ys, h => by simp at h
  | d :: c :: b :: a :: rest, ys, h => by
      have hr : rest.length % 4 = 0 := by
        simp only [List.length_cons] at h; omega
      simp only [List.cons_append, laneSwap]
      exact congrArg (fun t => a :: b :: c :: d :: t) (laneSwap_append rest ys hr)

/-- An honest environment for a fixed underlying byte `stream`: the SPI_BUSY
pin is ready at every poll and every bus read returns exactly the requested
number of bytes, consumed in order from `stream`.  One `BusStep` is produced
per iteration of the source's chunk loop; `fuel` bounds the recursion and is
instantiated with the byte count, which suffices whenever `mcs > 0`. -/
def mkSteps (mcs : Nat) : Nat → Nat → List Nat → List BusStep
  | 0, _, _ => []
  | _ + 1, 0, _ => []
  | fuel + 1, r + 1, stream =>
      BusStep.mk PollOutcome.ready (ReadOutcome.got (stream.take (min (r + 1) mcs))) ::
        mkSteps mcs fuel (r + 1 - min (r + 1) mcs) (stream.drop (min (r + 1) mcs))

theorem honest_assemble (mcs : Nat) (hm : 0 < mcs) (hm4 : mcs % 4 = 0) :
    ∀ (fuel r : Nat) (stream acc : List Nat) (n : Nat),
      r ≤ fuel → r % 4 = 0 → r ≤ stream.length →
      assembleFrame mcs true (mkSteps mcs fuel r stream) r acc n =
        Except.ok (acc ++ laneSwap (stream.take r), n + (r + mcs - 1) / mcs) := by
  intro fuel
  induction fuel with
  | zero =>
    intro r stream acc n hrf hr4 hrs
    have hr0 : r = 0 := by omega
    subst hr0
    have hd : (mcs - 1) / mcs = 0 := Nat.div_eq_of_lt (by omega)
    simp [mkSteps, assembleFrame, laneSwap, hd]
  | succ fuel ih =>
    intro r stream acc n hrf hr4 hrs
    cases r with
    | zero =>
      have hd : (mcs - 1) / mcs = 0 := Nat.div_eq_of_lt (by omega)
      simp [mkSteps, assembleFrame, laneSwap, hd]
    | succ r' =>
      have hk1 : 1 ≤ min (r' + 1) mcs := le_min (by omega) hm
      have hkr : min (r' + 1) mcs ≤ r' + 1 := Nat.min_le_left _ _
      have hkm : min (r' + 1) mcs ≤ mcs := Nat.min_le_right _ _
      have hk4 : min (r' + 1) mcs % 4 = 0 := by
        rcases Nat.le_total (r' + 1) mcs with hle | hle
        · rw [Nat.min_eq_left hle]; exact hr4
        · rw [Nat.min_eq_right hle]; exact hm4
      have hlen : (stream.take (min (r' + 1) mcs)).length = min (r' + 1) mcs := by
        rw [List.length_take]; exact Nat.min_eq_left (le_trans hkr hrs)
      simp only [mkSteps, assembleFrame]
      rw [if_neg (by simp)]
      rw [if_neg (by rw [hlen]; omega)]
      rw [if_neg (by rw [hlen]; simp)]
      have hrec := ih (r' + 1 - min (r' + 1) mcs) (stream.drop (min (r' + 1) mcs))
        (acc ++ laneSwap (stream.take (min (r' + 1) mcs))) (n + 1)
        (by omega)
        (by omega)
        (by rw [List.length_drop]; omega)
      rw [hrec]
      have hsplit : stream.take (r' + 1) =
          stream.take (min (r' + 1) mcs) ++
            (stream.drop (min (r' + 1) mcs)).take (r' + 1 - min (r' + 1) mcs) := by
        have hadd : stream.take (min (r' + 1) mcs + (r' + 1 - min (r' + 1) mcs)) =
            stream.take (min (r' + 1) mcs) ++
              (stream.drop (min (r' + 1) mcs)).take (r' + 1 - min (r' + 1) mcs) := by
          rw [List.take_add]
        have e : min (r' + 1) mcs + (r' + 1 - min (r' + 1) mcs) = r' + 1 := by omega
        rw [e] at hadd
        exact hadd
      have hbuf : acc ++ laneSwap (stream.take (r' + 1)) =
          acc ++ laneSwap (stream.take (min (r' + 1) mcs)) ++
            laneSwap ((stream.drop (min (r' + 1) mcs)).take (r' + 1 - min (r' + 1) mcs)) := by
        rw [hsplit, laneSwap_append _ _ (by rw [hlen]; exact hk4), List.append_assoc]
      have hcount : n + (r' + 1 + mcs - 1) / mcs =
          n + 1 + (r' + 1 - min (r' + 1) mcs + mcs - 1) / mcs := by
        rcases Nat.le_total (r' + 1) mcs with hle | hle
        · rw [Nat.min_eq_left hle]
          have h1 : (r' + 1 - (r' + 1) + mcs - 1) / mcs = 0 :=
            Nat.div_eq_of_lt (by omega)
          have h2 : r' + 1 + mcs - 1 = r' + mcs := by omega
          have h3 : (r' + mcs) / mcs = r' / mcs + 1 := Nat.add_div_right r' hm
          have h4 : r' / mcs = 0 := Nat.div_eq_of_lt (by omega)
          rw [h1, h2, h3, h4]
        · rw [Nat.min_eq_right hle]
          have h1 : r' + 1 - mcs + mcs - 1 = r' + 1 - mcs + (mcs - 1) := by omega
          have h2 : r' + 1 + mcs - 1 = r' + mcs := by omega
          have h3 : (r' + mcs) / mcs = r' / mcs + 1 := Nat.add_div_right r' hm
          have h4 : r' + 1 - mcs + mcs - 1 = r' := by omega
          have h5 : (r' + 1 - mcs + mcs - 1) / mcs = r' / mcs := by rw [h4]
          rw [h2, h3, h5]; omega
      rw [← hbuf, ← hcount]

/-- C4: chunking invariance over an honest environment.  For a fixed
underlying byte stream (long enough for the frame) and fixed `frame_length`,
`SpiFtdiFrameReader.__next__` assembles the same frame — the lane-swap of the
first `frame_length` stream bytes — for every `max_chunk_size` that is a
positive multiple of 4: the right-hand side's frame component does not mention
`mcs`.  The ghost read counter shows the call performs exactly
`ceil(frame_length / max_chunk_size) = (fl + mcs - 1) / mcs` bus reads; in the
model each `BusStep` is exactly one readiness poll followed by one bus read,
so readiness polls equal bus reads. -/
theorem c4_chunking_invariance (fl mcs : Nat) (stream : List Nat)
    (hm : 0 < mcs) (hm4 : mcs % 4 = 0) (hf4 : fl % 4 = 0) (hfs : fl ≤ stream.length) :
    spiFrameReaderNext ⟨fl, mcs⟩ true (mkSteps mcs fl fl stream) =
      Except.ok (laneSwap (stream.take fl), (fl + mcs - 1) / mcs) := by
  have h := honest_assemble mcs hm hm4 fl fl stream [] 0 (le_refl fl) hf4 hfs
  simpa [spiFrameReaderNext] using h

/-- C4 witness: an 8-byte frame read from the stream `[0,…,7]` with
`max_chunk_size = 4` yields the lane-swapped 8-byte prefix in
`ceil(8/4) = 2` bus reads. -/
theorem c4_chunking_invariance_witness :
    spiFrameReaderNext ⟨8, 4⟩ true (mkSteps 4 8 8 [0, 1, 2, 3, 4, 5, 6, 7]) =
      Except.ok (laneSwap (List.take 8 [0, 1, 2, 3, 4, 5, 6, 7]), (8 + 4 - 1) / 4) :=
  c4_chunking_invariance 8 4 [0, 1, 2, 3, 4, 5, 6, 7]
    (by decide) (by decide) (by decide) (by decide)

/-- Construction-time validation performed by `RadarCubeReader.__init__`
(lines 71–78) followed by the divisibility checks of
`SpiFtdiFrameReader.__init__` (lines 52–56), which run before any FTDI/SPI
transport object is created or configured (the `SpiController` is only built
at line 60 of `spi_ftdi_frame_reader.py`, after both checks).  Parameters are
Python ints, modelled as `Int`; `Except.ok ()` means all checks passed and
control reached the transport-opening code.  `frame_length` is the derived
`radar_cube_n_bytes = (tx*rx) * range_bins * (chirps // tx) * 4`
(line 86 of `radar_cube_reader.py`). -/
def radarCubeReaderValidation (tx rx rbins chirps mcs : Int) : Except String Unit :=
  if tx ≤ 0 ∨ rx ≤ 0 ∨ rbins ≤ 0 ∨ chirps ≤ 0 then
    Except.error "Antenna counts, range bins, and chirps per frame must be positive."
  else if chirps % tx ≠ 0 then
    Except.error "num_chirps_per_frame must be divisible by num_tx_antennas."
  else if rbins % 4 ≠ 0 then
    Except.error "num_range_bins must be divisible by 4."
  else if (tx * rx * rbins * (chirps / tx) * 4) % 4 ≠ 0 then
    Except.error "frame_length must be divisible by 4 (datasize in Bytes of SPI transaction)."
  else if mcs % 4 ≠ 0 then
    Except.error "max_chunk_size must be divisible by 4 (datasize in Bytes of SPI transaction)."
  else Except.ok ()

/-- C5: constructing a `RadarCubeReader` with any non-positive dimension,
`num_chirps_per_frame` not divisible by `num_tx_antennas`, `num_range_bins`
not divisible by 4, or `spi_max_chunk_size` not divisible by 4 fails the
eager validation (a deterministic configuration error raised before the
transport-opening code is reached).  The witness below instantiates the
spec's `num_range_bins = 63` example. -/
theorem c5_eager_validation (tx rx rbins chirps mcs : Int)
    (h : tx ≤ 0 ∨ rx ≤ 0 ∨ rbins ≤ 0 ∨ chirps ≤ 0 ∨
         chirps % tx ≠ 0 ∨ rbins % 4 ≠ 0 ∨ mcs % 4 ≠ 0) :
    isErr (radarCubeReaderValidation tx rx rbins chirps mcs) = true := by
  unfold radarCubeReaderValidation
  split_ifs with h1 h2 h3 h4 h5 <;> simp [isErr]
  push_neg at h1
  obtain ⟨p1, p2, p3, p4⟩ := h1
  rcases h with h | h | h | h | h | h | h
  · omega
  · omega
  · omega
  · omega
  · exact h (not_not.mp h2)
  · exact h (not_not.mp h3)
  · exact h (not_not.mp h5)

/-- C5 witness: `num_range_bins = 63` (with otherwise-valid parameters)
fails construction. -/
theorem c5_eager_validation_witness :
    isErr (radarCubeReaderValidation 2 3 63 8 65024) = true :=
  c5_eager_validation 2 3 63 8 65024 (by decide)

/-- Construction parameters of a `RadarCubeReader` after validation (all
positive, hence `Nat`). -/
structure CubeCfg where
  num_tx_antennas : Nat
  num_rx_antennas : Nat
  num_range_bins : Nat
  num_chirps_per_frame : Nat
  spi_max_chunk_size : Nat
deriving DecidableEq

/-- `self.num_virt_antennas = num_tx_antennas * num_rx_antennas` (line 83). -/
def numVirtAntennas (c : CubeCfg) : Nat :=
  c.num_tx_antennas * c.num_rx_antennas

/-- `self.num_doppler_chirps = num_chirps_per_frame // num_tx_antennas`
(line 84). -/
def numDopplerChirps (c : CubeCfg) : Nat :=
  c.num_chirps_per_frame / c.num_tx_antennas

/-- `self.radar_cube_n_bytes` (line 86): 4 bytes (two int16) per complex
sample. -/
def radarCubeNBytes (c : CubeCfg) : Nat :=
  numVirtAntennas c * c.num_range_bins * numDopplerChirps c * 4

/-- The conditions `RadarCubeReader.__init__` checks, as a predicate on the
`Nat`-typed configuration (`radarCubeReaderValidation` is the `Int`-typed
executable form that also tracks which error message is raised). -/
def ValidCfg (c : CubeCfg) : Prop :=
  0 < c.num_tx_antennas ∧ 0 < c.num_rx_antennas ∧ 0 < c.num_range_bins ∧
  0 < c.num_chirps_per_frame ∧
  c.num_chirps_per_frame % c.num_tx_antennas = 0 ∧
  c.num_range_bins % 4 = 0 ∧ c.spi_max_chunk_size % 4 = 0

instance (c : CubeCfg) : Decidable (ValidCfg c) := by
  unfold ValidCfg; infer_instance

/-- `np.frombuffer(..., dtype=np.int16)` on two little-endian bytes
(`_parse_frame` line 133): the unsigned 16-bit value reinterpreted as a
signed int16. -/
def int16FromLE (lo hi : Nat) : Int :=
  if lo % 256 + 256 * (hi % 256) < 32768 then
    ((lo % 256 + 256 * (hi % 256) : Nat) : Int)
  else
    ((lo % 256 + 256 * (hi % 256) : Nat) : Int) - 65536

/-- Complex sample number `k` of a parsed frame: int16 number `2k` is the
real part, int16 number `2k+1` the imaginary part (`_parse_frame` lines
140–146); int16 number `j` occupies bytes `2j, 2j+1`. -/
def sampleAt (bytes : List Nat) (k : Nat) : Int × Int :=
  (int16FromLE (bytes.getD (4 * k) 0) (bytes.getD (4 * k + 1) 0),
   int16FromLE (bytes.getD (4 * k + 2) 0) (bytes.getD (4 * k + 3) 0))

/-- Flat sample index of logical element `(r, a, ch)` of the parsed cube.
`_parse_frame` reshapes the flat sample sequence to SDK order
`(doppler_chirp, virt_antenna, range_bin)` (lines 150–154) and transposes
with axes `(2, 1, 0)` (line 161), so the element at canonical position
`(range_bin r, virt_antenna a, doppler_chirp ch)` is flat sample
`ch * (A * R) + a * R + r`. -/
def sdkIndex (c : CubeCfg) (r a ch : Nat) : Nat :=
  ch * (numVirtAntennas c * c.num_range_bins) + a * c.num_range_bins + r

/-- The validation performed by `RadarCubeReader._parse_frame` (lines
125–138): the received length must equal `radar_cube_n_bytes`, and the int16
count must equal twice the number of complex samples.  `Except.ok ()` means
parsing proceeds to produce the cube, whose element at canonical position
`(r, a, ch)` is `parsedValue`. -/
def parseFrameChecks (c : CubeCfg) (bytes : List Nat) : Except String Unit :=
  if bytes.length ≠ radarCubeNBytes c then
    Except.error "Data length mismatch during parsing"
  else if bytes.length / 2 ≠
      numDopplerChirps c * numVirtAntennas c * c.num_range_bins * 2 then
    Except.error "Integer conversion mismatch"
  else Except.ok ()

/-- Element `(range_bin r, virt_antenna a, doppler_chirp ch)` of the cube
produced by `_parse_frame` — the complex value as an exact pair
(real, imaginary).  The int16 components are widened to float32 by the
source (line 145); every int16 is exactly representable in float32, so the
widening is value-preserving and the components are modelled as `Int`. -/
def parsedValue (c : CubeCfg) (bytes : List Nat) (r a ch : Nat) : Int × Int :=
  sampleAt bytes (sdkIndex c r a ch)

/-- Little-endian byte pair of an int16 value (two's complement), as laid out
in the wire buffer the claim's round-trip starts from. -/
def int16ToLEBytes (v : Int) : List Nat :=
  [(v % 65536).toNat % 256, (v % 65536).toNat / 256]

/-- The 4 bytes of one complex sample: little-endian int16 real part, then
little-endian int16 imaginary part. -/
def encodeSample (s : Int × Int) : List Nat :=
  int16ToLEBytes s.1 ++ int16ToLEBytes s.2

/-- The sample sequence of a canonical-order cube `f` flattened in SDK
(chirp, antenna, range) order: flat sample `k` is the element at range bin
`k % R`, virtual antenna `k / R % A`, doppler chirp `k / (A * R)`. -/
def sdkFlatten (c : CubeCfg) (f : Nat → Nat → Nat → Int × Int) : List (Int × Int) :=
  (List.range (numDopplerChirps c * numVirtAntennas c * c.num_range_bins)).map
    (fun k => f (k % c.num_range_bins)
                (k / c.num_range_bins % numVirtAntennas c)
                (k / (numVirtAntennas c * c.num_range_bins)))

/-- The wire buffer of the claim's round-trip: each encoded 4-byte sample
lane is stored reversed, `[A,B,C,D]` becoming `[D,C,B,A]` on the wire. -/
def wireBytes (c : CubeCfg) (f : Nat → Nat → Nat → Int × Int) : List Nat :=
  (sdkFlatten c f).flatMap (fun s => (encodeSample s).reverse)

theorem int16FromLE_toBytes (v : Int) (h1 : -32768 ≤ v) (h2 : v ≤ 32767) :
    int16FromLE ((v % 65536).toNat % 256) ((v % 65536).toNat / 256) = v := by
  unfold int16FromLE
  have hu : ((v % 65536).toNat % 256) % 256 + 256 * (((v % 65536).toNat / 256) % 256) =
      (v % 65536).toNat := by omega
  rw [hu]
  split_ifs with hcase <;> omega

theorem eq_four_of_length (l : List Nat) (h : l.length = 4) :
    ∃ a b c d, l = [a, b, c, d] := by
  match l with
  | [a, b, c, d] => exact ⟨a, b, c, d, rfl⟩
  | [] => simp at h
  | [a] => simp at h
  | [a, b] => simp at h
  | [a, b, c] => simp at h
  | a :: b :: c :: d :: e :: t => simp only [List.length_cons] at h; omega

theorem getD_cons4 (w x y z : Nat) (l : List Nat) (m : Nat) :
    (w :: x :: y :: z :: l).getD (m + 4) 0 = l.getD m 0 := by
  have e : m + 4 = m + 1 + 1 + 1 + 1 := by omega
  rw [e]; simp [List.getD]

theorem encodeSample_length (s : Int × Int) : (encodeSample s).length = 4 := by
  simp [encodeSample, int16ToLEBytes]

theorem laneSwap_rev_blocks :
    ∀ xs : List (Int × Int),
      laneSwap (xs.flatMap (fun s => (encodeSample s).reverse)) =
        xs.flatMap encodeSample := by
  intro xs
  induction xs with
  | nil => simp [laneSwap]
  | cons x rest ih =>
    obtain ⟨b0, b1, b2, b3, hb⟩ := eq_four_of_length (encodeSample x) (encodeSample_length x)
    have hstep : (x :: rest).flatMap (fun s => (encodeSample s).reverse) =
        b3 :: b2 :: b1 :: b0 :: rest.flatMap (fun s => (encodeSample s).reverse) := by
      simp [List.flatMap_cons, hb]
    have hls : laneSwap (b3 :: b2 :: b1 :: b0 ::
          rest.flatMap (fun s => (encodeSample s).reverse)) =
        b0 :: b1 :: b2 :: b3 ::
          laneSwap (rest.flatMap (fun s => (encodeSample s).reverse)) := rfl
    rw [hstep, hls, ih]
    simp [List.flatMap_cons, hb]

theorem flatMap_blocks_length :
    ∀ xs : List (Int × Int), (xs.flatMap encodeSample).length = 4 * xs.length := by
  intro xs
  induction xs with
  | nil => simp
  | cons x rest ih =>
    simp only [List.flatMap_cons, List.length_append, List.length_cons, ih,
      encodeSample_length]
    omega

theorem flatMap_blocks_getD :
    ∀ (xs : List (Int × Int)) (i : Nat), i < xs.length →
      ((xs.flatMap encodeSample).getD (4 * i) 0 =
          (encodeSample (xs.getD i (0, 0))).getD 0 0 ∧
       (xs.flatMap encodeSample).getD (4 * i + 1) 0 =
          (encodeSample (xs.getD i (0, 0))).getD 1 0 ∧
       (xs.flatMap encodeSample).getD (4 * i + 2) 0 =
          (encodeSample (xs.getD i (0, 0))).getD 2 0 ∧
       (xs.flatMap encodeSample).getD (4 * i + 3) 0 =
          (encodeSample (xs.getD i (0, 0))).getD 3 0) := by
  intro xs
  induction xs with
  | nil => intro i hi; simp at hi
  | cons x rest ih =>
    intro i hi
    obtain ⟨b0, b1, b2, b3, hb⟩ := eq_four_of_length (encodeSample x) (encodeSample_length x)
    have hflat : (x :: rest).flatMap encodeSample =
        b0 :: b1 :: b2 :: b3 :: rest.flatMap encodeSample := by
      simp [List.flatMap_cons, hb]
    cases i with
    | zero =>
      rw [hflat]
      simp [List.getD, hb]
    | succ i' =>
      have hi' : i' < rest.length := by simp only [List.length_cons] at hi; omega
      obtain ⟨g0, g1, g2, g3⟩ := ih i' hi'
      have hxs : (x :: rest).getD (i' + 1) (0, 0) = rest.getD i' (0, 0) := by
        simp [List.getD]
      have e0 : 4 * (i' + 1) = 4 * i' + 4 := by omega
      have e1 : 4 * (i' + 1) + 1 = 4 * i' + 1 + 4 := by omega
      have e2 : 4 * (i' + 1) + 2 = 4 * i' + 2 + 4 := by omega
      have e3 : 4 * (i' + 1) + 3 = 4 * i' + 3 + 4 := by omega
      rw [hflat, hxs]
      refine ⟨?_, ?_, ?_, ?_⟩
      · rw [e0, getD_cons4]; exact g0
      · rw [e1, getD_cons4]; exact g1
      · rw [e2, getD_cons4]; exact g2
      · rw [e3, getD_cons4]; exact g3

theorem inner_lt (R A a r : Nat) (hr : r < R) (ha : a < A) : a * R + r < A * R := by
  calc a * R + r < a * R + R := by omega
    _ = (a + 1) * R := by ring
    _ ≤ A * R := Nat.mul_le_mul_right R (by omega)

theorem sdkIndex_lt (c : CubeCfg) (r a ch : Nat)
    (hr : r < c.num_range_bins) (ha : a < numVirtAntennas c)
    (hch : ch < numDopplerChirps c) :
    sdkIndex c r a ch <
      numDopplerChirps c * numVirtAntennas c * c.num_range_bins := by
  unfold sdkIndex
  have h1 : a * c.num_range_bins + r < numVirtAntennas c * c.num_range_bins :=
    inner_lt _ _ _ _ hr ha
  calc ch * (numVirtAntennas c * c.num_range_bins) + a * c.num_range_bins + r
      < ch * (numVirtAntennas c * c.num_range_bins) +
          numVirtAntennas c * c.num_range_bins := by omega
    _ = (ch + 1) * (numVirtAntennas c * c.num_range_bins) := by ring
    _ ≤ numDopplerChirps c * (numVirtAntennas c * c.num_range_bins) :=
        Nat.mul_le_mul_right _ (by omega)
    _ = numDopplerChirps c * numVirtAntennas c * c.num_range_bins := by ring

theorem sdkIndex_mod_r (c : CubeCfg) (r a ch : Nat) (hr : r < c.num_range_bins) :
    sdkIndex c r a ch % c.num_range_bins = r := by
  have e : sdkIndex c r a ch =
      c.num_range_bins * (ch * numVirtAntennas c + a) + r := by
    unfold sdkIndex; ring
  rw [e, Nat.mul_add_mod, Nat.mod_eq_of_lt hr]

theorem sdkIndex_div_mod_a (c : CubeCfg) (r a ch : Nat)
    (hr : r < c.num_range_bins) (ha : a < numVirtAntennas c) :
    sdkIndex c r a ch / c.num_range_bins % numVirtAntennas c = a := by
  have hR : 0 < c.num_range_bins := by omega
  have e : sdkIndex c r a ch =
      c.num_range_bins * (numVirtAntennas c * ch + a) + r := by
    unfold sdkIndex; ring
  rw [e, Nat.mul_add_div hR, Nat.div_eq_of_lt hr, Nat.add_zero,
    Nat.mul_add_mod, Nat.mod_eq_of_lt ha]

theorem sdkIndex_div_ar (c : CubeCfg) (r a ch : Nat)
    (hr : r < c.num_range_bins) (ha : a < numVirtAntennas c) :
    sdkIndex c r a ch / (numVirtAntennas c * c.num_range_bins) = ch := by
  have hAR : 0 < numVirtAntennas c * c.num_range_bins := by
    have := inner_lt c.num_range_bins (numVirtAntennas c) a r hr ha
    omega
  have e : sdkIndex c r a ch =
      numVirtAntennas c * c.num_range_bins * ch +
        (a * c.num_range_bins + r) := by
    unfold sdkIndex; ring
  rw [e, Nat.mul_add_div hAR,
    Nat.div_eq_of_lt (inner_lt _ _ _ _ hr ha), Nat.add_zero]

/-- C3: round-trip.  For every valid reader configuration and every
canonical-order cube `f` of int16-component complex values, encoding the cube
as little-endian int16 (real, imag) pairs in SDK (chirp, antenna, range)
order with each 4-byte lane stored reversed as [D,C,B,A] (`wireBytes`), then
applying the assembler's lane correction (`laneSwap`) followed by
`RadarCubeReader._parse_frame` (`parseFrameChecks` / `parsedValue`),
reproduces the original value at every in-range position exactly. -/
theorem c3_round_trip (c : CubeCfg) (f : Nat → Nat → Nat → Int × Int)
    (hv : ValidCfg c)
    (hb : ∀ r a ch, -32768 ≤ (f r a ch).1 ∧ (f r a ch).1 ≤ 32767 ∧
                    -32768 ≤ (f r a ch).2 ∧ (f r a ch).2 ≤ 32767)
    (r a ch : Nat) (hr : r < c.num_range_bins) (ha : a < numVirtAntennas c)
    (hch : ch < numDopplerChirps c) :
    parseFrameChecks c (laneSwap (wireBytes c f)) = Except.ok () ∧
    parsedValue c (laneSwap (wireBytes c f)) r a ch = f r a ch := by
  have hlanes : laneSwap (wireBytes c f) = (sdkFlatten c f).flatMap encodeSample :=
    laneSwap_rev_blocks (sdkFlatten c f)
  have hsdkLen : (sdkFlatten c f).length =
      numDopplerChirps c * numVirtAntennas c * c.num_range_bins := by
    simp [sdkFlatten]
  have hlen1 : ((sdkFlatten c f).flatMap encodeSample).length = radarCubeNBytes c := by
    rw [flatMap_blocks_length, hsdkLen]
    unfold radarCubeNBytes
    ring
  have hklt0 : sdkIndex c r a ch <
      numDopplerChirps c * numVirtAntennas c * c.num_range_bins :=
    sdkIndex_lt c r a ch hr ha hch
  have hklt : sdkIndex c r a ch < (sdkFlatten c f).length := by
    rw [hsdkLen]; exact hklt0
  have hget : (sdkFlatten c f).getD (sdkIndex c r a ch) (0, 0) = f r a ch := by
    unfold sdkFlatten
    rw [List.getD_eq_getElem?_getD, List.getElem?_map, List.getElem?_range hklt0]
    simp [sdkIndex_mod_r c r a ch hr, sdkIndex_div_mod_a c r a ch hr ha,
      sdkIndex_div_ar c r a ch hr ha]
  constructor
  · rw [hlanes]
    unfold parseFrameChecks
    have h2 : radarCubeNBytes c / 2 =
        numDopplerChirps c * numVirtAntennas c * c.num_range_bins * 2 := by
      unfold radarCubeNBytes
      have he : numVirtAntennas c * c.num_range_bins * numDopplerChirps c * 4 =
          numDopplerChirps c * numVirtAntennas c * c.num_range_bins * 2 * 2 := by
        ring
      rw [he, Nat.mul_div_cancel _ (by norm_num)]
    rw [if_neg (by rw [hlen1]; simp), if_neg (by rw [hlen1, h2]; simp)]
  · rw [hlanes]
    unfold parsedValue sampleAt
    obtain ⟨g0, g1, g2, g3⟩ := flatMap_blocks_getD (sdkFlatten c f) (sdkIndex c r a ch) hklt
    rw [g0, g1, g2, g3, hget]
    obtain ⟨hb1, hb2, hb3, hb4⟩ := hb r a ch
    have he0 : (encodeSample (f r a ch)).getD 0 0 = ((f r a ch).1 % 65536).toNat % 256 := by
      simp [encodeSample, int16ToLEBytes, List.getD]
    have he1 : (encodeSample (f r a ch)).getD 1 0 = ((f r a ch).1 % 65536).toNat / 256 := by
      simp [encodeSample, int16ToLEBytes, List.getD]
    have he2 : (encodeSample (f r a ch)).getD 2 0 = ((f r a ch).2 % 65536).toNat % 256 := by
      simp [encodeSample, int16ToLEBytes, List.getD]
    have he3 : (encodeSample (f r a ch)).getD 3 0 = ((f r a ch).2 % 65536).toNat / 256 := by
      simp [encodeSample, int16ToLEBytes, List.getD]
    rw [he0, he1, he2, he3, int16FromLE_toBytes _ hb1 hb2,
      int16FromLE_toBytes _ hb3 hb4]

/-- C3 witness: a 1×1 antenna, 4-range-bin, 1-chirp configuration carrying
the constant sample (5, -7) round-trips exactly; checked at position
(range 2, antenna 0, chirp 0). -/
theorem c3_round_trip_witness :
    parseFrameChecks ⟨1, 1, 4, 1, 4⟩
        (laneSwap (wireBytes ⟨1, 1, 4, 1, 4⟩ (fun _ _ _ => (5, -7)))) =
      Except.ok () ∧
    parsedValue ⟨1, 1, 4, 1, 4⟩
        (laneSwap (wireBytes ⟨1, 1, 4, 1, 4⟩ (fun _ _ _ => (5, -7)))) 2 0 0 =
      (5, -7) :=
  c3_round_trip ⟨1, 1, 4, 1, 4⟩ (fun _ _ _ => (5, -7)) (by decide)
    (by
      intro r a ch
      show -32768 ≤ (5 : Int) ∧ (5 : Int) ≤ 32767 ∧
        -32768 ≤ (-7 : Int) ∧ (-7 : Int) ≤ 32767
      decide)
    2 0 0 (by decide) (by decide) (by decide)

/-- Outcome of one `RadarCubeReader.__next__` call: a parsed cube (its
element function), or a propagated `StopIteration`, or a `RuntimeError`. -/
inductive RcOutcome where
  | cube (g : Nat → Nat → Nat → Int × Int)
  | stopIteration (msg : String)
  | runtimeError (msg : String)

/-- Whether an outcome delivered a RadarCube. -/
def producesCube : RcOutcome → Bool
  | RcOutcome.cube _ => true
  | _ => false

/-- `RadarCubeReader.__next__` (lines 185–222).  `spiReaderOpen` models
whether `self._spi_reader` is set (None after `close()`).  On a closed reader
it raises `RuntimeError` (line 202–203).  Otherwise it pulls one frame from
the underlying `SpiFtdiFrameReader` (whose `frame_length` is
`radar_cube_n_bytes` and whose `max_chunk_size` is `spi_max_chunk_size`,
lines 92–99); a `StopIteration` from the SPI reader triggers `self.close()`
and re-raises (lines 214–216), a `ValueError` from `_parse_frame` triggers
`self.close()` and raises `RuntimeError` (lines 217–219).  The returned pair
is (new `_spi_reader is not None` state, outcome). -/
def radarCubeReaderNext (c : CubeCfg) (spiReaderOpen : Bool) (steps : List BusStep) :
    Bool × RcOutcome :=
  if spiReaderOpen = false then
    (false, RcOutcome.runtimeError "Cannot call __next__ on a closed RadarCubeReader.")
  else
    match spiFrameReaderNext ⟨radarCubeNBytes c, c.spi_max_chunk_size⟩ true steps with
    | Except.error e => (false, RcOutcome.stopIteration e)
    | Except.ok (buf, _) =>
      match parseFrameChecks c buf with
      | Except.error e => (false, RcOutcome.runtimeError e)
      | Except.ok _ => (true, RcOutcome.cube (parsedValue c buf))

/-- `RadarCubeReader.__iter__` (lines 171–183): raises `RuntimeError` when
`self._spi_reader` is None. -/
def radarCubeReaderIter (spiReaderOpen : Bool) : Except String Unit :=
  if spiReaderOpen then Except.ok ()
  else Except.error "RadarCubeReader is not initialized or has been closed."

/-- C6: short-read handling.  First conjunct: at any point of frame assembly
(any `remaining` count `r > 0`, any partial buffer `acc`), a bus read that
returns zero bytes or a byte count different from the requested
`min r max_chunk_size` makes the `__next__` call fail immediately — the
result is an error no matter what environment steps (`rest`) would have
followed, so there is no partial-chunk retry.  Second conjunct: whenever the
underlying SPI read raises, `RadarCubeReader.__next__` closes the reader
(state component `false`, releasing the transport) and re-raises the
`StopIteration` — no RadarCube is produced for that cycle. -/
theorem c6_short_read (c : CubeCfg) (mcs : Nat) (chunk : List Nat)
    (rest steps : List BusStep) (r : Nat) (acc : List Nat) (n : Nat) (e : String)
    (hr : 0 < r)
    (hlen : chunk.length = 0 ∨ chunk.length ≠ min r mcs)
    (hrun : spiFrameReaderNext ⟨radarCubeNBytes c, c.spi_max_chunk_size⟩ true steps =
      Except.error e) :
    isErr (assembleFrame mcs true
        (BusStep.mk PollOutcome.ready (ReadOutcome.got chunk) :: rest) r acc n) = true ∧
    radarCubeReaderNext c true steps = (false, RcOutcome.stopIteration e) := by
  constructor
  · obtain ⟨r', rfl⟩ : ∃ r', r = r' + 1 := ⟨r - 1, by omega⟩
    rcases hlen with h0 | hne
    · simp [assembleFrame, isErr, h0]
    · by_cases h0 : chunk.length = 0
      · simp [assembleFrame, isErr, h0]
      · simp [assembleFrame, isErr, h0, hne]
  · unfold radarCubeReaderNext
    rw [if_neg (by simp), hrun]

/-- C6 witness: a 1×1-antenna, 4-range-bin, 1-chirp reader (16-byte frames,
4-byte chunks).  A 2-byte chunk where 4 bytes were requested aborts assembly
immediately, and the facade call closes the reader and raises. -/
theorem c6_short_read_witness :
    isErr (assembleFrame 4 true
        [BusStep.mk PollOutcome.ready (ReadOutcome.got [1, 2])] 4 [] 0) = true ∧
    radarCubeReaderNext ⟨1, 1, 4, 1, 4⟩ true
        [BusStep.mk PollOutcome.ready (ReadOutcome.got [9, 9])] =
      (false, RcOutcome.stopIteration "Received chunk size mismatch") :=
  c6_short_read ⟨1, 1, 4, 1, 4⟩ 4 [1, 2] []
    [BusStep.mk PollOutcome.ready (ReadOutcome.got [9, 9])] 4 [] 0
    "Received chunk size mismatch" (by decide) (Or.inr (by decide)) rfl

/-- C7: `Closed` is terminal.  Once `_spi_reader` is None, `__iter__` raises
`RuntimeError`, `__next__` raises `RuntimeError`, the state stays closed, and
no RadarCube is ever produced, for every configuration and environment. -/
theorem c7_closed_is_terminal (c : CubeCfg) (steps : List BusStep) :
    radarCubeReaderIter false =
      Except.error "RadarCubeReader is not initialized or has been closed." ∧
    radarCubeReaderNext c false steps =
      (false, RcOutcome.runtimeError "Cannot call __next__ on a closed RadarCubeReader.") ∧
    producesCube (radarCubeReaderNext c false steps).2 = false :=
  ⟨rfl, rfl, rfl⟩

/-- The Python runtime type of the value `SpiFtdiFrameReader.__next__`
returns: `bytes` (immutable) or `bytearray` (mutable). -/
inductive PyBytesObject where
  | bytes (data : List Nat)
  | bytearray (data : List Nat)
deriving DecidableEq

/-- Whether the object is an immutable `bytes` object. -/
def isPyBytes : PyBytesObject → Bool
  | PyBytesObject.bytes _ => true
  | PyBytesObject.bytearray _ => false

/-- The object `SpiFtdiFrameReader.__next__` actually returns: line 155 is
`return frame_data`, returning the `bytearray` accumulator itself with no
`bytes(...)` conversion — despite the comment directly above it
("return the full frame as immutable bytes"), the `-> bytes` annotation, and
the docstring. -/
def spiNextReturnValue (cfg : SpiReaderCfg) (portOpen : Bool) (steps : List BusStep) :
    Except String PyBytesObject :=
  Except.map (fun p => PyBytesObject.bytearray p.1) (spiFrameReaderNext cfg portOpen steps)

/-- C8 (code bug): a successful `__next__` call returns a `bytearray` — a
mutable object — not the immutable `bytes` object promised by the claim, the
spec, and the source's own comment, annotation and docstring.  Evaluated at a
concrete 4-byte frame. -/
theorem c8_returns_bytearray :
    spiNextReturnValue ⟨4, 4⟩ true
        [BusStep.mk PollOutcome.ready (ReadOutcome.got [1, 2, 3, 4])] =
      Except.ok (PyBytesObject.bytearray [4, 3, 2, 1]) ∧
    isPyBytes (PyBytesObject.bytearray [4, 3, 2, 1]) = false :=
  ⟨rfl, rfl⟩

/-- The `timestamp` attribute stored by `RadarCube.__init__` (lines 68–70):
`current_timestamp = timestamp or time.time()`.  Python `or` yields the right
operand whenever the left operand is falsy — which for a float parameter
means not only `None` (modelled `none`) but also `0.0` (modelled `some 0`).
Timestamps are floats; they are only stored, never computed with, so exact
rationals model them faithfully. -/
def radarCubeTimestampAttr (timestamp : Option ℚ) (now : ℚ) : ℚ :=
  match timestamp with
  | none => now
  | some t => if t = 0 then now else t

/-- The (`timestamp`, `interleaved`) attribute pair stored on a
`RadarCube1D`'s DataArray (`radar_cube.py` lines 68–70 and 153). -/
def radarCube1DAttrs (interleaved : Bool) (timestamp : Option ℚ) (now : ℚ) :
    ℚ × Bool :=
  (radarCubeTimestampAttr timestamp now, interleaved)

/-- C9 (code bug): evaluating the attribute logic shows the divergence.  A
caller-supplied timestamp of `0.0` (a valid epoch float) is discarded and
replaced by the current time — first conjunct — although the docstring says
the default applies only when the argument is `None`; a nonzero supplied
timestamp and the `None` default behave as documented (second and third
conjuncts), and the `interleaved` flag is always stored as passed. -/
theorem c9_timestamp_attrs :
    radarCube1DAttrs true (some 0) 1700000000 = (1700000000, true) ∧
    radarCube1DAttrs true (some 5) 1700000000 = (5, true) ∧
    radarCube1DAttrs true none 1700000000 = (1700000000, true) := by
  refine ⟨?_, ?_, ?_⟩ <;>
    norm_num [radarCube1DAttrs, radarCubeTimestampAttr]

/-- Outcome of a `close()` call: completed normally or raised. -/
inductive CloseResult where
  | normal
  | raised (msg : String)
deriving DecidableEq

/-- `SpiFtdiFrameReader.close` (lines 157–167): `try: terminate()` then a
`finally:` that nulls the fields; if `terminate` raises, the exception
propagates to the caller after the `finally` runs. -/
def spiFtdiReaderClose (terminateRaises : Bool) : CloseResult :=
  if terminateRaises then CloseResult.raised "terminate failed"
  else CloseResult.normal

/-- `RadarCubeReader.close` (lines 225–242).  If `_spi_reader` is set, the
underlying close runs inside `try ... except Exception: print` (so a raising
underlying close is swallowed) with a `finally:` that sets `_spi_reader` to
None; if already closed, only a message is printed.  Returns
(new `_spi_reader is not None` state, whether the call raised). -/
def radarCubeReaderClose (spiReaderOpen : Bool) (terminateRaises : Bool) :
    Bool × CloseResult :=
  if spiReaderOpen then
    match spiFtdiReaderClose terminateRaises with
    | CloseResult.normal => (false, CloseResult.normal)
    | CloseResult.raised _ => (false, CloseResult.normal)
  else
    (false, CloseResult.normal)

/-- C10: `RadarCubeReader.close()` never raises (even when the underlying
`SpiFtdiFrameReader.close()` itself raises) and always leaves
`_spi_reader = None`; a second close is a no-op that completes normally, so
close ∘ close has the same effect on the reader state as close. -/
theorem c10_close_idempotent (spiOpen t t' : Bool) :
    radarCubeReaderClose spiOpen t = (false, CloseResult.normal) ∧
    radarCubeReaderClose (radarCubeReaderClose spiOpen t).1 t' =
      radarCubeReaderClose spiOpen t := by
  cases spiOpen <;> cases t <;> cases t' <;>
    simp [radarCubeReaderClose, spiFtdiReaderClose]
